import Mathlib

/-!
Shallow embedding of the StudyFlow backend's room / presence / chat
persistence subsystem (src/src/services/room.service.ts,
src/src/config/queue.ts, the chat worker and the Socket.IO gateway),
together with proofs of the specification's claims about it.

Identifiers (Mongo ObjectIds) are modelled as strings; timestamps as
natural numbers (epoch milliseconds); the Mongo collections and the Redis
presence hash as association lists.
-/

namespace StudyFlow

/-- Decidable equality for `Except`, for evaluating service results on
concrete inputs. -/
instance exceptDecEq {ε α : Type} [DecidableEq ε] [DecidableEq α] :
    DecidableEq (Except ε α) := fun a b =>
  match a, b with
  | Except.error e, Except.error f =>
      if h : e = f then isTrue (by rw [h])
      else isFalse (by intro hh; cases hh; exact h rfl)
  | Except.error _, Except.ok _ => isFalse (by intro hh; cases hh)
  | Except.ok _, Except.error _ => isFalse (by intro hh; cases hh)
  | Except.ok x, Except.ok y =>
      if h : x = y then isTrue (by rw [h])
      else isFalse (by intro hh; cases hh; exact h rfl)

/-- Mongoose `Types.ObjectId.isValid` on a string: true for a 24-character
hexadecimal string or any 12-character string. -/
def isValidObjectId (s : String) : Bool :=
  (s.length == 24 && s.data.all (fun c =>
    c.isDigit || ('a' ≤ c && c ≤ 'f') || ('A' ≤ c && c ≤ 'F'))) ||
  s.length == 12

/-- Member role, from the room schema (`HOST`/`CO_HOST`/`MEMBER`; the
service code only ever assigns `HOST` and `MEMBER`). -/
inductive Role where
  | HOST
  | CO_HOST
  | MEMBER
deriving DecidableEq, Repr

/-- Room status, from `UpdateRoomData` in room.service.ts. -/
inductive Status where
  | WAITING
  | ACTIVE
  | PAUSED
  | COMPLETED
deriving DecidableEq, Repr

/-- A room member (`IRoomMember`): user reference, role, ready flag,
join timestamp. -/
structure Member where
  userId : String
  role : Role
  ready : Bool
  joinedAt : Nat
deriving DecidableEq, Repr

/-- A room (`IRoom`): identifier, join code, host reference, title,
status, capacity, members. -/
structure Room where
  id : String
  code : String
  hostId : String
  title : String
  status : Status
  maxSeats : Nat
  members : List Member
deriving DecidableEq, Repr

/-- A user, as far as the room subsystem reads it (`name`). -/
structure User where
  id : String
  name : String
deriving DecidableEq, Repr

/-- Errors thrown with `createError` in room.service.ts and the room
controller; each constructor corresponds to one message/status pair. -/
inductive RoomError where
  /-- 'Invalid user ID', 400. -/
  | invalidUserId
  /-- 'Invalid ID format', 400. -/
  | invalidIdFormat
  /-- 'Room not found', 404. -/
  | roomNotFound
  /-- 'Room is completed', 400. -/
  | roomCompleted
  /-- 'Room is full', 400. -/
  | roomFull
  /-- 'Already a member of this room', 400. -/
  | alreadyMember
  /-- 'User not found', 404. -/
  | userNotFound
  /-- 'Not a member of this room', 403. -/
  | notAMember
  /-- 'Access denied - not a room member', 403. -/
  | accessDenied
  /-- 'Authentication required', 401 (controller). -/
  | authRequired
  /-- 'Room ID is required', 400 (controller). -/
  | roomIdRequired
  /-- 'Room not found or access denied', 404 (updateRoom). -/
  | roomNotFoundOrDenied
deriving DecidableEq, Repr

/-- JavaScript `data.maxSeats || 8`: the default replaces both a missing
and a zero (falsy) value. -/
def jsOrDefault (o : Option Nat) (d : Nat) : Nat :=
  match o with
  | none => d
  | some 0 => d
  | some n => n

/-- `RoomService.createRoom`, after the host-exists check and unique-code
generation succeed: the new room with the host as sole `HOST` member.
The `status` field is not set by the constructor call; the room schema
file is absent from the sources, so the initial status is
modelled from the spec: rooms are created `WAITING` and only transition
to `COMPLETED` when membership becomes empty. -/
def createRoomCore (id code hostId title : String) (maxSeats : Option Nat)
    (now : Nat) : Room :=
  { id := id
    code := code
    hostId := hostId
    title := title
    status := Status.WAITING
    maxSeats := jsOrDefault maxSeats 8
    members := [{ userId := hostId, role := Role.HOST, ready := false,
                  joinedAt := now }] }

/-- The body of `RoomService.joinRoom` once the room has been found by
code (lines 103-135): completed check, capacity check, already-member
check, user lookup, then push of a `MEMBER` entry. -/
def joinRoomCore (users : List User) (userId : String) (now : Nat)
    (room : Room) : Except RoomError Room :=
  if room.status = Status.COMPLETED then
    Except.error RoomError.roomCompleted
  else if room.maxSeats ≤ room.members.length then
    Except.error RoomError.roomFull
  else if room.members.any (fun m => m.userId == userId) then
    Except.error RoomError.alreadyMember
  else
    match users.find? (fun u => u.id == userId) with
    | none => Except.error RoomError.userNotFound
    | some _ =>
        Except.ok { room with
          members := room.members ++
            [{ userId := userId, role := Role.MEMBER, ready := false,
               joinedAt := now }] }

/-- `RoomService.leaveRoom` on the found room (lines 209-223): filter the
leaver out; if the leaver was the host (`hostId` comparison) and members
remain, promote the first remaining member to `HOST`; if no members
remain, set status `COMPLETED`. -/
def leaveRoomCore (userId : String) (room : Room) : Room :=
  let remaining := room.members.filter (fun m => ! (m.userId == userId))
  let pair :=
    match remaining with
    | [] => (room.hostId, ([] : List Member))
    | m :: rest =>
        if room.hostId == userId then
          (m.userId, { m with role := Role.HOST } :: rest)
        else
          (room.hostId, m :: rest)
  let status := if pair.2.isEmpty then Status.COMPLETED else room.status
  { room with hostId := pair.1, members := pair.2, status := status }

/-- Flip the ready flag of the first member with the given user id
(mirrors `room.members.find(...)` followed by mutation of that member);
`none` when no member matches. -/
def toggleFirst (userId : String) : List Member → Option (List Member)
  | [] => none
  | m :: rest =>
      if m.userId == userId then
        some ({ m with ready := !m.ready } :: rest)
      else
        (toggleFirst userId rest).map (fun ms => m :: ms)

/-- `RoomService.toggleReady` on the found room (lines 245-251). -/
def toggleReadyCore (userId : String) (room : Room) :
    Except RoomError Room :=
  match toggleFirst userId room.members with
  | none => Except.error RoomError.notAMember
  | some ms => Except.ok { room with members := ms }

/-- `UpdateRoomData`: the partial-update payload of
`RoomService.updateRoom`. -/
structure UpdateRoomData where
  title : Option String
  status : Option Status
  maxSeats : Option Nat
deriving DecidableEq, Repr

/-- The `$set` applied by `RoomService.updateRoom` (line 185) to the
matched room: every provided field overwrites the stored one. -/
def updateRoomCore (data : UpdateRoomData) (room : Room) : Room :=
  { room with
    title := data.title.getD room.title
    status := data.status.getD room.status
    maxSeats := data.maxSeats.getD room.maxSeats }

/-- The room collection, as the list of stored rooms. -/
abbrev RoomDB := List Room

/-- Write back a saved room: every stored room with the same id is
replaced by the new value (`room.save()`). -/
def saveRoom (db : List Room) (r : Room) : List Room :=
  db.map (fun x => if x.id == r.id then r else x)

/-- `RoomService.joinRoom` (lines 89-149) at the collection level: id
validity check, `findOne({code})` (exact, case-sensitive string match),
then `joinRoomCore`; the second component is the room collection after
the call (unchanged on every error, since the throw precedes the save). -/
def joinRoom (users : List User) (userId code : String) (now : Nat)
    (db : List Room) : Except RoomError Room × List Room :=
  if ¬ isValidObjectId userId then
    (Except.error RoomError.invalidUserId, db)
  else
    match db.find? (fun r => r.code == code) with
    | none => (Except.error RoomError.roomNotFound, db)
    | some room =>
        match joinRoomCore users userId now room with
        | Except.error e => (Except.error e, db)
        | Except.ok r => (Except.ok r, saveRoom db r)

/-- `RoomService.leaveRoom` (lines 199-229) at the collection level. -/
def leaveRoomService (roomId userId : String) (db : List Room) :
    Except RoomError Unit × List Room :=
  if ¬ (isValidObjectId roomId && isValidObjectId userId) then
    (Except.error RoomError.invalidIdFormat, db)
  else
    match db.find? (fun r => r.id == roomId) with
    | none => (Except.error RoomError.roomNotFound, db)
    | some room => (Except.ok (), saveRoom db (leaveRoomCore userId room))

/-- `RoomService.toggleReady` (lines 232-264) at the collection level. -/
def toggleReadyService (roomId userId : String) (db : List Room) :
    Except RoomError Room × List Room :=
  if ¬ (isValidObjectId roomId && isValidObjectId userId) then
    (Except.error RoomError.invalidIdFormat, db)
  else
    match db.find? (fun r => r.id == roomId) with
    | none => (Except.error RoomError.roomNotFound, db)
    | some room =>
        match toggleReadyCore userId room with
        | Except.error e => (Except.error e, db)
        | Except.ok r => (Except.ok r, saveRoom db r)

/-- `RoomService.getRoomById` (lines 152-175): validity, lookup,
membership check. -/
def getRoomById (roomId userId : String) (db : List Room) :
    Except RoomError Room :=
  if ¬ (isValidObjectId roomId && isValidObjectId userId) then
    Except.error RoomError.invalidIdFormat
  else
    match db.find? (fun r => r.id == roomId) with
    | none => Except.error RoomError.roomNotFound
    | some room =>
        if room.members.any (fun m => m.userId == userId) then
          Except.ok room
        else
          Except.error RoomError.accessDenied

/-- `RoomController.leaveRoom` (room.controller): auth check, non-empty
`roomId` param check, then the service call
`roomService.leaveRoom(req.user.id, roomId)` — note the argument order:
the authenticated user's id is passed where the service expects the room
id, and the path parameter where it expects the user id. -/
def controllerLeaveRoom (user : Option User) (roomIdParam : String)
    (db : List Room) : Except RoomError Unit × List Room :=
  match user with
  | none => (Except.error RoomError.authRequired, db)
  | some u =>
      if roomIdParam == "" then
        (Except.error RoomError.roomIdRequired, db)
      else
        leaveRoomService u.id roomIdParam db

/-- `RoomController.toggleReady` (room.controller): auth check, non-empty
`roomId` param check, then `roomService.toggleReady(req.user.id, roomId)`
— the same swapped argument order as `controllerLeaveRoom`. -/
def controllerToggleReady (user : Option User) (roomIdParam : String)
    (db : List Room) : Except RoomError Room × List Room :=
  match user with
  | none => (Except.error RoomError.authRequired, db)
  | some u =>
      if roomIdParam == "" then
        (Except.error RoomError.roomIdRequired, db)
      else
        toggleReadyService u.id roomIdParam db

/-! ## Reachability of room states through the Room Directory service -/

/-- One mutation of a single room through the service operations that act
on an existing room: a successful join, a leave, or a successful ready
toggle (the `users` list is the user collection visible to `joinRoom`). -/
inductive RoomStep (users : List User) : Room → Room → Prop where
  | join (userId : String) (now : Nat) (r r2 : Room)
      (h : joinRoomCore users userId now r = Except.ok r2) :
      RoomStep users r r2
  | leave (userId : String) (r : Room) :
      RoomStep users r (leaveRoomCore userId r)
  | toggle (userId : String) (r r2 : Room)
      (h : toggleReadyCore userId r = Except.ok r2) :
      RoomStep users r r2

/-- Room states reachable from creation through any sequence of join,
leave and toggle-ready operations. -/
inductive RoomReachable : Room → Prop where
  | create (id code hostId title : String) (maxSeats : Option Nat)
      (now : Nat) :
      RoomReachable (createRoomCore id code hostId title maxSeats now)
  | step (users : List User) (r r2 : Room) (h1 : RoomReachable r)
      (h2 : RoomStep users r r2) : RoomReachable r2

/-- Room states reachable when `updateRoom`'s `$set` is also allowed
(the full operation surface of the Room Directory service). -/
inductive RoomReachableU : Room → Prop where
  | create (id code hostId title : String) (maxSeats : Option Nat)
      (now : Nat) :
      RoomReachableU (createRoomCore id code hostId title maxSeats now)
  | step (users : List User) (r r2 : Room) (h1 : RoomReachableU r)
      (h2 : RoomStep users r r2) : RoomReachableU r2
  | update (data : UpdateRoomData) (r : Room) (h : RoomReachableU r) :
      RoomReachableU (updateRoomCore data r)

/-! ## Presence store (Redis hashes `room:{roomId}:presence`) -/

/-- One presence entry, as serialized by the service:
`{id, name, ready, isOnline}`. -/
structure PresenceEntry where
  id : String
  name : String
  ready : Bool
  isOnline : Bool
deriving DecidableEq, Repr

/-- The whole presence store: one entry per (room id, user id) key. -/
abbrev PresenceStore := List (String × String × PresenceEntry)

/-- Redis `hget room:{r}:presence u`. -/
def hget (ps : PresenceStore) (r u : String) : Option PresenceEntry :=
  match ps with
  | [] => none
  | (r2, u2, e) :: rest =>
      if r2 == r && u2 == u then some e else hget rest r u

/-- Redis `hset room:{r}:presence u e`: overwrite the entry at the key,
or append a fresh one. -/
def hset (ps : PresenceStore) (r u : String) (e : PresenceEntry) :
    PresenceStore :=
  match ps with
  | [] => [(r, u, e)]
  | (r2, u2, e2) :: rest =>
      if r2 == r && u2 == u then (r, u, e) :: rest
      else (r2, u2, e2) :: hset rest r u e

/-- Redis `hdel room:{r}:presence u`. -/
def hdel (ps : PresenceStore) (r u : String) : PresenceStore :=
  ps.filter (fun x => ¬ (x.1 == r && x.2.1 == u))

/-- `RoomService.getRoomPresence` (lines 267-270): all entries of the
room's hash. -/
def getRoomPresence (ps : PresenceStore) (r : String) :
    List PresenceEntry :=
  (ps.filter (fun x => x.1 == r)).map (fun x => x.2.2)

/-- `RoomService.updateUserOnlineStatus` (lines 273-280): read the entry,
and only when it exists, write it back with `isOnline` replaced. -/
def updateUserOnlineStatus (ps : PresenceStore) (roomId userId : String)
    (isOnline : Bool) : PresenceStore :=
  match hget ps roomId userId with
  | none => ps
  | some e => hset ps roomId userId { e with isOnline := isOnline }

/-! ## Chat persistence queue and worker -/

/-- Chat message type (`'TEXT' | 'SYSTEM' | 'EMOJI' | 'FILE'`). -/
inductive MsgType where
  | TEXT
  | SYSTEM
  | EMOJI
  | FILE
deriving DecidableEq, Repr

/-- `ChatMessageJob` (config/queue.ts): the queue wire payload. The
`timestamp` ISO string is modelled as epoch milliseconds. -/
structure ChatMessageJob where
  roomId : String
  userId : Option String
  username : String
  content : String
  type : MsgType
  timestamp : Nat
deriving DecidableEq, Repr

/-- A durable chat message (`IChatMessage`). -/
structure ChatMessage where
  roomId : String
  userId : Option String
  content : String
  type : MsgType
  createdAt : Nat
deriving DecidableEq, Repr

/-- Backoff options of the queue's default job options. -/
structure BackoffOpts where
  kind : String
  delay : Nat
deriving DecidableEq, Repr

/-- `defaultJobOptions` shape of the BullMQ chat queue. -/
structure JobOptions where
  removeOnComplete : Nat
  removeOnFail : Nat
  attempts : Nat
  backoff : BackoffOpts
deriving DecidableEq, Repr

/-- The options passed to `new Queue('chat.persist', ...)` in
`createChatQueue` (config/queue.ts lines 20-31). -/
def chatQueueDefaultJobOptions : JobOptions :=
  { removeOnComplete := 100
    removeOnFail := 50
    attempts := 3
    backoff := { kind := "exponential", delay := 2000 } }

/-- Worker pool options. -/
structure WorkerOpts where
  concurrency : Nat
  limiterMax : Nat
  limiterDuration : Nat
deriving DecidableEq, Repr

/-- The options passed to `new Worker('chat.persist', ...)` in the
`ChatWorker` constructor (concurrency 5, limiter 100 per 60000 ms). -/
def chatWorkerOptions : WorkerOpts :=
  { concurrency := 5, limiterMax := 100, limiterDuration := 60000 }

/-- Errors raised by `ChatWorker.processChatMessage`. -/
inductive WorkerError where
  /-- 'Room ... not found'. -/
  | roomMissing
  /-- 'User ... not found'. -/
  | userMissing
  /-- 'User ... is not a member of room ...'. -/
  | notMember
deriving DecidableEq, Repr

/-- The durable chat message built by `ChatMessage.create` in the worker:
every field comes from the job, `createdAt` from
`new Date(data.timestamp)`. -/
def messageOfJob (data : ChatMessageJob) : ChatMessage :=
  { roomId := data.roomId
    userId := data.userId
    content := data.content
    type := data.type
    createdAt := data.timestamp }

/-- `ChatWorker.processChatMessage` (worker lines 50-118): room-exists
check; for jobs passing `data.userId && data.type !== 'SYSTEM'` (a
JavaScript truthiness test, so a `null` or empty user id skips the
block), user-exists and room-membership checks; then one
`ChatMessage.create` with the job's timestamp as `createdAt`. The `now`
argument is the wall clock at processing time; the code never reads it.
On success the new history is returned. -/
def processChatMessage (rooms : List Room) (users : List User)
    (data : ChatMessageJob) (history : List ChatMessage) (_now : Nat) :
    Except WorkerError (List ChatMessage) :=
  match rooms.find? (fun r => r.id == data.roomId) with
  | none => Except.error WorkerError.roomMissing
  | some _ =>
      let checkNeeded : Bool :=
        match data.userId with
        | none => false
        | some uid => uid != "" && !(data.type == MsgType.SYSTEM)
      if checkNeeded then
        match data.userId with
        | some uid =>
            if (users.find? (fun u => u.id == uid)).isNone then
              Except.error WorkerError.userMissing
            else if (rooms.find? (fun r =>
                r.id == data.roomId &&
                r.members.any (fun m => m.userId == uid))).isNone then
              Except.error WorkerError.notMember
            else
              Except.ok (history ++ [messageOfJob data])
        | none => Except.ok (history ++ [messageOfJob data])
      else
        Except.ok (history ++ [messageOfJob data])

/-! ## Connection Gateway (SocketService joinRoom handler) -/

/-- Modelled from the spec: `RoomService.getRoomMessages` is called by the
gateway (`roomService.getRoomMessages(roomId, 20)`) but its definition is
missing from the sources. The spec states that durable chat history is
"queried in reverse-chronological pages" and that the joining connection
receives "the most recent page (e.g., 20) of chat history"; the handler
reverses the result before emitting, so the service must return the
newest messages first. Modelled as: the room's messages sorted by
`createdAt` descending, truncated to `limit`. -/
def getRoomMessages (history : List ChatMessage) (roomId : String)
    (limit : Nat) : List ChatMessage :=
  (List.insertionSort (fun a b => b.createdAt ≤ a.createdAt)
    (history.filter (fun m => m.roomId == roomId))).take limit

/-- The state read and written by the gateway's joinRoom handler: the
room and user collections, the presence store, the durable chat history
and the pending persistence queue. -/
structure GatewayState where
  rooms : List Room
  users : List User
  presence : PresenceStore
  history : List ChatMessage
  queue : List ChatMessageJob
deriving Repr, DecidableEq

/-- The observable effects of one successful joinRoom socket event.
`systemMessageToOthers` is the `socket.to(roomId).emit('systemMessage')`
payload (delivered to the other connections in the room, not the
sender); `roomUsersToAll` is the `io.to(roomId).emit('roomUsers')`
payload; `chatHistoryToSelf` is the `socket.emit('chatHistory')` payload
(delivered to the joining connection only). -/
structure JoinRoomEffects where
  presence : PresenceStore
  queue : List ChatMessageJob
  systemMessageToOthers : String × Nat
  roomUsersToAll : List PresenceEntry
  chatHistoryToSelf : List ChatMessage
deriving Repr, DecidableEq

/-- The `joinRoom` socket handler (socket.service, lines 96-146):
validate via `getRoomById`, set the user's presence entry online,
read the room presence, broadcast and enqueue the synthetic system
message "<name> joined the room", emit the presence list, and emit the
reversed most-recent-20 chat history to the joining connection. `now` is
the wall clock used for the system message timestamp. -/
def handleJoinRoom (userId userName roomId : String) (now : Nat)
    (st : GatewayState) : Except RoomError JoinRoomEffects :=
  match getRoomById roomId userId st.rooms with
  | Except.error e => Except.error e
  | Except.ok _ =>
      let presence2 := updateUserOnlineStatus st.presence roomId userId true
      let plist := getRoomPresence presence2 roomId
      let job : ChatMessageJob :=
        { roomId := roomId
          userId := none
          username := "System"
          content := userName ++ " joined the room"
          type := MsgType.SYSTEM
          timestamp := now }
      let recent := getRoomMessages st.history roomId 20
      Except.ok
        { presence := presence2
          queue := st.queue ++ [job]
          systemMessageToOthers := (job.content, job.timestamp)
          roomUsersToAll := plist
          chatHistoryToSelf := recent.reverse }

/-- A message list is in chronological (oldest-first) order. -/
def Chronological (l : List ChatMessage) : Prop :=
  List.Pairwise (fun a b => a.createdAt ≤ b.createdAt) l

/-! ## Helper lemmas -/

theorem hget_hset_self (ps : PresenceStore) (r u : String)
    (e : PresenceEntry) : hget (hset ps r u e) r u = some e := by
  induction ps with
  | nil => simp [hset, hget]
  | cons x rest ih =>
      obtain ⟨r2, u2, e2⟩ := x
      by_cases h : (r2 == r && u2 == u) = true
      · simp only [hset, h, if_true, hget]
        simp
      · simp only [hset, h, if_false, Bool.false_eq_true, hget]
        exact ih

theorem hget_hset_ne (ps : PresenceStore) (r u r2 u2 : String)
    (e : PresenceEntry) (h : ¬ (r2 = r ∧ u2 = u)) :
    hget (hset ps r u e) r2 u2 = hget ps r2 u2 := by
  have hcond : (r == r2 && u == u2) = false := by
    by_cases hr : r = r2
    · by_cases hu : u = u2
      · exact absurd ⟨hr.symm, hu.symm⟩ h
      · simp [hu]
    · simp [hr]
  induction ps with
  | nil =>
      simp only [hset, hget]
      rw [if_neg (by simp_all)]
  | cons x rest ih =>
      obtain ⟨ra, ua, ea⟩ := x
      by_cases hx : (ra == r && ua == u) = true
      · have hra : ra = r := by
          have := hx
          simp only [Bool.and_eq_true, beq_iff_eq] at this
          exact this.1
        have hua : ua = u := by
          have := hx
          simp only [Bool.and_eq_true, beq_iff_eq] at this
          exact this.2
        simp only [hset, hx, if_true, hget]
        rw [if_neg (by simp_all), if_neg (by simp_all)]
      · simp only [hset, hx, if_false, Bool.false_eq_true, hget]
        by_cases hy : (ra == r2 && ua == u2) = true
        · rw [if_pos hy, if_pos hy]
        · rw [if_neg hy, if_neg hy]
          exact ih

theorem hget_some_hset_length (ps : PresenceStore) (r u : String)
    (e e2 : PresenceEntry) (h : hget ps r u = some e) :
    (hset ps r u e2).length = ps.length := by
  induction ps with
  | nil => simp [hget] at h
  | cons x rest ih =>
      obtain ⟨ra, ua, ea⟩ := x
      by_cases hx : (ra == r && ua == u) = true
      · simp [hset, hx]
      · simp only [hget, hx, if_false, Bool.false_eq_true] at h
        simp only [hset, hx, if_false, Bool.false_eq_true,
          List.length_cons]
        rw [ih h]

/-- Writing back a successful core result, as the services do. -/
def applyCore (c : Except RoomError Room) (db : List Room) :
    Except RoomError Room × List Room :=
  match c with
  | Except.error e => (Except.error e, db)
  | Except.ok r => (Except.ok r, saveRoom db r)

theorem applyCore_fst_error (c : Except RoomError Room) (db : List Room)
    (x : RoomError) :
    (applyCore c db).1 = Except.error x ↔ c = Except.error x := by
  cases c <;> simp [applyCore]

theorem applyCore_fst_ok (c : Except RoomError Room) (db : List Room)
    (r : Room) : (applyCore c db).1 = Except.ok r ↔ c = Except.ok r := by
  cases c <;> simp [applyCore]

theorem applyCore_snd_of_error (c : Except RoomError Room)
    (db : List Room) (x : RoomError) (h : (applyCore c db).1 = Except.error x) :
    (applyCore c db).2 = db := by
  cases c <;> simp_all [applyCore]

theorem applyCore_snd_of_ok (c : Except RoomError Room) (db : List Room)
    (r : Room) (h : (applyCore c db).1 = Except.ok r) :
    (applyCore c db).2 = saveRoom db r := by
  cases c <;> simp_all [applyCore]

theorem joinRoom_eq_applyCore (users : List User) (userId code : String)
    (now : Nat) (db : List Room) (hv : isValidObjectId userId = true) :
    joinRoom users userId code now db =
      match db.find? (fun r => r.code == code) with
      | none => (Except.error RoomError.roomNotFound, db)
      | some room => applyCore (joinRoomCore users userId now room) db := by
  unfold joinRoom
  rw [if_neg (by simp [hv])]
  cases hfind : db.find? (fun r => r.code == code) with
  | none => rfl
  | some room =>
      cases hc : joinRoomCore users userId now room <;> simp [applyCore, hc]

theorem joinRoomCore_never_notFound (users : List User) (userId : String)
    (now : Nat) (room : Room) :
    joinRoomCore users userId now room ≠
      Except.error RoomError.roomNotFound := by
  unfold joinRoomCore
  split_ifs <;> try simp
  cases users.find? (fun u => u.id == userId) <;> simp

theorem joinRoomCore_completed_iff (users : List User) (userId : String)
    (now : Nat) (room : Room) :
    joinRoomCore users userId now room =
        Except.error RoomError.roomCompleted ↔
      room.status = Status.COMPLETED := by
  unfold joinRoomCore
  split_ifs with h1 h2 h3
  · simp [h1]
  · simp [h1]
  · simp [h1]
  · cases users.find? (fun u => u.id == userId) <;> simp [h1]

theorem joinRoomCore_full_iff (users : List User) (userId : String)
    (now : Nat) (room : Room) :
    joinRoomCore users userId now room = Except.error RoomError.roomFull ↔
      (room.status ≠ Status.COMPLETED ∧
        room.maxSeats ≤ room.members.length) := by
  unfold joinRoomCore
  split_ifs with h1 h2 h3
  · simp [h1]
  · simp [h1, h2]
  · simp [h2]
  · cases users.find? (fun u => u.id == userId) <;> simp [h2]

theorem joinRoomCore_already_iff (users : List User) (userId : String)
    (now : Nat) (room : Room) :
    joinRoomCore users userId now room =
        Except.error RoomError.alreadyMember ↔
      (room.status ≠ Status.COMPLETED ∧
        room.members.length < room.maxSeats ∧
        room.members.any (fun m => m.userId == userId) = true) := by
  unfold joinRoomCore
  split_ifs with h1 h2 h3
  · simp [h1]
  · simp [h1, h2]
  · simp [h1, h2, h3, Nat.lt_of_not_le (by simpa using h2)]
  · cases users.find? (fun u => u.id == userId) <;> simp [h3]

theorem joinRoomCore_ok_shape (users : List User) (userId : String)
    (now : Nat) (room r2 : Room)
    (h : joinRoomCore users userId now room = Except.ok r2) :
    room.status ≠ Status.COMPLETED ∧
    room.members.length < room.maxSeats ∧
    r2 = { room with
      members := room.members ++
        [{ userId := userId, role := Role.MEMBER, ready := false,
           joinedAt := now }] } := by
  unfold joinRoomCore at h
  split_ifs at h with h1 h2 h3
  revert h
  cases users.find? (fun u => u.id == userId) with
  | none => intro h; simp at h
  | some u =>
      intro h
      refine ⟨h1, Nat.lt_of_not_le (by simpa using h2), ?_⟩
      cases h
      rfl

theorem jsOrDefault_pos (o : Option Nat) : 1 ≤ jsOrDefault o 8 := by
  cases o with
  | none => simp [jsOrDefault]
  | some n => cases n <;> simp [jsOrDefault]

theorem leaveRoomCore_maxSeats (userId : String) (room : Room) :
    (leaveRoomCore userId room).maxSeats = room.maxSeats := by
  unfold leaveRoomCore
  cases room.members.filter (fun m => ! (m.userId == userId)) with
  | nil => rfl
  | cons m rest =>
      by_cases hh : (room.hostId == userId) = true <;> simp [hh]

theorem leaveRoomCore_length (userId : String) (room : Room) :
    (leaveRoomCore userId room).members.length =
      (room.members.filter (fun m => ! (m.userId == userId))).length := by
  unfold leaveRoomCore
  cases room.members.filter (fun m => ! (m.userId == userId)) with
  | nil => rfl
  | cons m rest =>
      by_cases hh : (room.hostId == userId) = true <;> simp [hh]

theorem leaveRoomCore_inv (userId : String) (room : Room)
    (hinv : room.status = Status.COMPLETED ↔ room.members = []) :
    (leaveRoomCore userId room).status = Status.COMPLETED ↔
      (leaveRoomCore userId room).members = [] := by
  unfold leaveRoomCore
  cases hrem : room.members.filter (fun m => ! (m.userId == userId)) with
  | nil => simp
  | cons m rest =>
      have hne : room.members ≠ [] := by
        intro h0
        rw [h0] at hrem
        simp at hrem
      have hst : room.status ≠ Status.COMPLETED := fun hc => hne (hinv.mp hc)
      by_cases hh : (room.hostId == userId) = true <;> simp [hh, hst]

theorem leaveRoomCore_of_empty (userId : String) (room : Room)
    (h : room.members = []) :
    (leaveRoomCore userId room).status = Status.COMPLETED := by
  unfold leaveRoomCore
  simp [h]

theorem toggleFirst_some_length (uid : String) (ms ms2 : List Member)
    (h : toggleFirst uid ms = some ms2) : ms2.length = ms.length := by
  induction ms generalizing ms2 with
  | nil => simp [toggleFirst] at h
  | cons m rest ih =>
      unfold toggleFirst at h
      by_cases hm : (m.userId == uid) = true
      · rw [if_pos hm] at h
        cases h
        simp
      · rw [if_neg hm] at h
        cases hrec : toggleFirst uid rest with
        | none => rw [hrec] at h; simp at h
        | some l2 =>
            rw [hrec] at h
            simp only [Option.map_some'] at h
            cases h
            simp [ih l2 hrec]

theorem toggleReadyCore_ok_shape (uid : String) (r r2 : Room)
    (h : toggleReadyCore uid r = Except.ok r2) :
    r2.status = r.status ∧ r2.maxSeats = r.maxSeats ∧
    r2.members.length = r.members.length ∧ r.members ≠ [] := by
  unfold toggleReadyCore at h
  cases ht : toggleFirst uid r.members with
  | none => rw [ht] at h; simp at h
  | some ms =>
      rw [ht] at h
      cases h
      refine ⟨rfl, rfl, toggleFirst_some_length uid r.members ms ht, ?_⟩
      intro h0
      rw [h0] at ht
      simp [toggleFirst] at ht

theorem joinRoomCore_ok_fields (users : List User) (userId : String)
    (now : Nat) (room r2 : Room)
    (h : joinRoomCore users userId now room = Except.ok r2) :
    r2.status = room.status ∧ r2.maxSeats = room.maxSeats ∧
    r2.members.length = room.members.length + 1 ∧
    room.status ≠ Status.COMPLETED ∧
    room.members.length < room.maxSeats := by
  obtain ⟨hnc, hlt, hshape⟩ := joinRoomCore_ok_shape users userId now room r2 h
  subst hshape
  simp [hnc, hlt]

theorem length_filter_not_beq (uid : String) (ms : List Member) :
    (ms.filter (fun m => ! (m.userId == uid))).length +
      ms.countP (fun m => m.userId == uid) = ms.length := by
  induction ms with
  | nil => simp
  | cons m rest ih =>
      simp only [List.filter_cons, List.countP_cons]
      by_cases hm : (m.userId == uid) = true
      · simp [hm]
        omega
      · simp [hm]
        omega

/-! ## Claims -/

/-- Claim C8: `updateUserOnlineStatus` (the spec's `setOnline`) only
modifies the online flag of an existing presence entry. When no entry
exists for the (room, user) key, the whole store is returned unchanged
(no entry is synthesized); when an entry exists, the entry keeps its
`id`, `name` and `ready` fields (only `isOnline` is replaced), every
other key maps to its previous value, and the store gains no entry. -/
theorem updateUserOnlineStatus_frame (ps : PresenceStore)
    (roomId userId : String) (b : Bool) :
    (hget ps roomId userId = none →
      updateUserOnlineStatus ps roomId userId b = ps) ∧
    (∀ e, hget ps roomId userId = some e →
      hget (updateUserOnlineStatus ps roomId userId b) roomId userId =
        some { e with isOnline := b } ∧
      (∀ r2 u2, ¬ (r2 = roomId ∧ u2 = userId) →
        hget (updateUserOnlineStatus ps roomId userId b) r2 u2 =
          hget ps r2 u2) ∧
      (updateUserOnlineStatus ps roomId userId b).length = ps.length) := by
  constructor
  · intro h
    simp [updateUserOnlineStatus, h]
  · intro e he
    refine ⟨?_, ?_, ?_⟩
    · simp only [updateUserOnlineStatus, he]
      exact hget_hset_self ps roomId userId _
    · intro r2 u2 hne
      simp only [updateUserOnlineStatus, he]
      exact hget_hset_ne ps roomId userId r2 u2 _ hne
    · simp only [updateUserOnlineStatus, he]
      exact hget_some_hset_length ps roomId userId e _ he

/-- Witness for C8 at a concrete store: the frame theorem applied to a
one-entry store, both at the present key and at an absent key. -/
theorem updateUserOnlineStatus_frame_witness :
    hget [("r1", "u1", PresenceEntry.mk "u1" "Uma" false false)] "r1" "u1" =
      some (PresenceEntry.mk "u1" "Uma" false false) ∧
    hget (updateUserOnlineStatus
        [("r1", "u1", PresenceEntry.mk "u1" "Uma" false false)]
        "r1" "u1" true) "r1" "u1" =
      some (PresenceEntry.mk "u1" "Uma" false true) := by
  refine ⟨by decide, ?_⟩
  exact ((updateUserOnlineStatus_frame
    [("r1", "u1", PresenceEntry.mk "u1" "Uma" false false)]
    "r1" "u1" true).2 (PresenceEntry.mk "u1" "Uma" false false)
    (by decide)).1

/-- Claim C2: with a well-formed caller id, `joinRoom` fails with the
room-not-found error exactly when no stored room has the given code;
when a room matches, it fails with the completed-room error exactly when
that room's status is `COMPLETED`, with the room-full error exactly when
(not completed and) `maxSeats ≤ members.length`, and with the
already-member error exactly when (not completed, not full and) the user
is already a member; on every error the room collection is unchanged,
and on success exactly one new `MEMBER` entry for the user is appended
and the collection stores the updated room. -/
theorem joinRoom_error_spec (users : List User) (userId code : String)
    (now : Nat) (db : List Room) (hv : isValidObjectId userId = true) :
    ((joinRoom users userId code now db).1 =
        Except.error RoomError.roomNotFound ↔
      db.find? (fun r => r.code == code) = none) ∧
    (∀ room, db.find? (fun r => r.code == code) = some room →
      ((joinRoom users userId code now db).1 =
          Except.error RoomError.roomCompleted ↔
        room.status = Status.COMPLETED) ∧
      ((joinRoom users userId code now db).1 =
          Except.error RoomError.roomFull ↔
        (room.status ≠ Status.COMPLETED ∧
          room.maxSeats ≤ room.members.length)) ∧
      ((joinRoom users userId code now db).1 =
          Except.error RoomError.alreadyMember ↔
        (room.status ≠ Status.COMPLETED ∧
          room.members.length < room.maxSeats ∧
          room.members.any (fun m => m.userId == userId) = true)) ∧
      (∀ r2, (joinRoom users userId code now db).1 = Except.ok r2 →
        r2.members = room.members ++
          [{ userId := userId, role := Role.MEMBER, ready := false,
             joinedAt := now }] ∧
        (joinRoom users userId code now db).2 = saveRoom db r2)) ∧
    (∀ e, (joinRoom users userId code now db).1 = Except.error e →
      (joinRoom users userId code now db).2 = db) := by
  rw [joinRoom_eq_applyCore users userId code now db hv]
  cases hfind : db.find? (fun r => r.code == code) with
  | none =>
      refine ⟨by simp, ?_, ?_⟩
      · intro room hr; cases hr
      · intro e _; rfl
  | some room =>
      refine ⟨?_, ?_, ?_⟩
      · rw [applyCore_fst_error]
        simp [joinRoomCore_never_notFound users userId now room]
      · intro room2 hr
        have hrr : room2 = room := by cases hr; rfl
        subst hrr
        refine ⟨?_, ?_, ?_, ?_⟩
        · rw [applyCore_fst_error]
          exact joinRoomCore_completed_iff users userId now room2
        · rw [applyCore_fst_error]
          exact joinRoomCore_full_iff users userId now room2
        · rw [applyCore_fst_error]
          exact joinRoomCore_already_iff users userId now room2
        · intro r2 hok
          rw [applyCore_fst_ok] at hok
          have hshape := joinRoomCore_ok_shape users userId now room2 r2 hok
          refine ⟨by rw [hshape.2.2], ?_⟩
          exact applyCore_snd_of_ok _ db r2 (by rw [applyCore_fst_ok]; exact hok)
      · intro e he
        exact applyCore_snd_of_error _ db e he

/-- Witness for C2: joining the demo room with a fresh user appends one
`MEMBER` entry, and joining a completed room fails with the
completed-room error. -/
theorem joinRoom_error_spec_witness :
    isValidObjectId "useruseruser" = true ∧
    ([Room.mk "roomroomroom" "AB12CD" "hosthosthost" "Algebra"
        Status.COMPLETED 4
        [Member.mk "hosthosthost" Role.HOST false 0]].find?
      (fun r => r.code == "AB12CD") =
      some (Room.mk "roomroomroom" "AB12CD" "hosthosthost" "Algebra"
        Status.COMPLETED 4 [Member.mk "hosthosthost" Role.HOST false 0])) ∧
    ((joinRoom [User.mk "useruseruser" "Uma"] "useruseruser" "AB12CD" 5
        [Room.mk "roomroomroom" "AB12CD" "hosthosthost" "Algebra"
          Status.COMPLETED 4
          [Member.mk "hosthosthost" Role.HOST false 0]]).1 =
      Except.error RoomError.roomCompleted ↔
      Status.COMPLETED = Status.COMPLETED) := by
  refine ⟨by decide, by decide, ?_⟩
  exact ((joinRoom_error_spec [User.mk "useruseruser" "Uma"] "useruseruser"
    "AB12CD" 5
    [Room.mk "roomroomroom" "AB12CD" "hosthosthost" "Algebra"
      Status.COMPLETED 4 [Member.mk "hosthosthost" Role.HOST false 0]]
    (by decide)).2.1
    (Room.mk "roomroomroom" "AB12CD" "hosthosthost" "Algebra"
      Status.COMPLETED 4 [Member.mk "hosthosthost" Role.HOST false 0])
    (by decide)).1

/-- Claim C1: in every room state reachable from creation through any
sequence of (successful) join, leave and toggle-ready operations of the
Room Directory service, the member count never exceeds `maxSeats`:
`joinRoom` rejects with the room-full error when the count has reached
`maxSeats`, and `leaveRoom` never increases membership. -/
theorem reachable_member_count_le_maxSeats (r : Room)
    (h : RoomReachable r) : r.members.length ≤ r.maxSeats := by
  induction h with
  | create id code hostId title maxSeats now =>
      simpa [createRoomCore] using jsOrDefault_pos maxSeats
  | step users a b h1 h2 ih =>
      cases h2 with
      | join uid now _ _ hj =>
          obtain ⟨_, _, hlen, _, hlt⟩ :=
            joinRoomCore_ok_fields users uid now a b hj
          omega
      | leave uid _ =>
          have hlen := leaveRoomCore_length uid a
          have hms := leaveRoomCore_maxSeats uid a
          have hfil := List.length_filter_le
            (fun m => ! (m.userId == uid)) a.members
          omega
      | toggle uid _ _ hj =>
          obtain ⟨_, hms, hlen, _⟩ := toggleReadyCore_ok_shape uid a b hj
          omega

/-- Witness for C1: the invariant evaluated on a freshly created room. -/
theorem reachable_member_count_le_maxSeats_witness :
    (createRoomCore "roomroomroom" "AB12CD" "hosthosthost" "Algebra"
      (some 4) 0).members.length ≤
    (createRoomCore "roomroomroom" "AB12CD" "hosthosthost" "Algebra"
      (some 4) 0).maxSeats :=
  reachable_member_count_le_maxSeats
    (createRoomCore "roomroomroom" "AB12CD" "hosthosthost" "Algebra"
      (some 4) 0)
    (RoomReachable.create "roomroomroom" "AB12CD" "hosthosthost" "Algebra"
      (some 4) 0)

/-- Counterexample to C4: over the full operation surface of the Room
Directory service — `updateRoom` included — the claimed invariant fails:
`updateRoom`'s `$set` can write `status: COMPLETED` into a room that
still has members (breaking the "iff empty" direction), so the
conjunction of the invariant and of COMPLETED-monotonicity is refuted on
a freshly created room updated to `COMPLETED`. -/
theorem completed_iff_empty_fails_with_update :
    ¬ ((∀ r : Room, RoomReachableU r →
          (r.status = Status.COMPLETED ↔ r.members = [])) ∧
       (∀ r : Room, RoomReachableU r → r.status = Status.COMPLETED →
          ∀ data : UpdateRoomData,
            (updateRoomCore data r).status = Status.COMPLETED)) := by
  intro hboth
  have hr0 : RoomReachableU (createRoomCore "roomroomroom" "AB12CD"
      "hosthosthost" "Algebra" none 0) :=
    RoomReachableU.create "roomroomroom" "AB12CD" "hosthosthost" "Algebra"
      none 0
  have hr1 : RoomReachableU (updateRoomCore
      (UpdateRoomData.mk none (some Status.COMPLETED) none)
      (createRoomCore "roomroomroom" "AB12CD" "hosthosthost" "Algebra"
        none 0)) :=
    RoomReachableU.update (UpdateRoomData.mk none (some Status.COMPLETED)
      none) (createRoomCore "roomroomroom" "AB12CD" "hosthosthost"
      "Algebra" none 0) hr0
  have := (hboth.1 _ hr1).mp
  simp [updateRoomCore, createRoomCore] at this

/-- Claim C4 as amended: across every sequence of `createRoom`,
`joinRoom`, `leaveRoom` and `toggleReady` operations (`updateRoom`
excluded, since its `$set` writes any requested status), a room's status
is `COMPLETED` exactly when its member list is empty, and once
`COMPLETED` none of these operations ever changes the status again. -/
theorem completed_iff_empty_no_update (r : Room) (h : RoomReachable r) :
    (r.status = Status.COMPLETED ↔ r.members = []) ∧
    (∀ (users : List User) (r2 : Room), RoomStep users r r2 →
      r.status = Status.COMPLETED → r2.status = Status.COMPLETED) := by
  have hinv : ∀ x : Room, RoomReachable x →
      (x.status = Status.COMPLETED ↔ x.members = []) := by
    intro x hx
    induction hx with
    | create id code hostId title maxSeats now => simp [createRoomCore]
    | step users a b h1 h2 ih =>
        cases h2 with
        | join uid now _ _ hj =>
            obtain ⟨hnc, _, hshape⟩ :=
              joinRoomCore_ok_shape users uid now a b hj
            subst hshape
            simp [hnc]
        | leave uid _ => exact leaveRoomCore_inv uid a ih
        | toggle uid _ _ hj =>
            obtain ⟨hs, _, hlen, hne⟩ := toggleReadyCore_ok_shape uid a b hj
            have hnc : a.status ≠ Status.COMPLETED :=
              fun hc => hne (ih.mp hc)
            rw [hs]
            have hbne : b.members ≠ [] := by
              intro h0
              rw [h0] at hlen
              exact hne (List.eq_nil_of_length_eq_zero hlen.symm)
            simp [hnc, hbne]
  refine ⟨hinv r h, ?_⟩
  intro users r2 hstep hc
  have hempty : r.members = [] := (hinv r h).mp hc
  cases hstep with
  | join uid now _ _ hj =>
      obtain ⟨hnc, _, _⟩ := joinRoomCore_ok_shape users uid now r r2 hj
      exact absurd hc hnc
  | leave uid _ => exact leaveRoomCore_of_empty uid r hempty
  | toggle uid _ _ hj =>
      obtain ⟨_, _, _, hne⟩ := toggleReadyCore_ok_shape uid r r2 hj
      exact absurd hempty hne

/-- Witness for C4 (amended): the invariant evaluated on a freshly
created room (non-empty, not `COMPLETED`). -/
theorem completed_iff_empty_no_update_witness :
    ((createRoomCore "roomroomroom" "AB12CD" "hosthosthost" "Algebra"
        (some 4) 0).status = Status.COMPLETED ↔
      (createRoomCore "roomroomroom" "AB12CD" "hosthosthost" "Algebra"
        (some 4) 0).members = []) :=
  (completed_iff_empty_no_update
    (createRoomCore "roomroomroom" "AB12CD" "hosthosthost" "Algebra"
      (some 4) 0)
    (RoomReachable.create "roomroomroom" "AB12CD" "hosthosthost" "Algebra"
      (some 4) 0)).1

/-- Claim C3: for every room whose members satisfy the one-HOST
invariant (the host appears among the members exactly once, and a member
has role `HOST` exactly when it is the host), if the host leaves and at
least one member remains, then membership drops by exactly one, the
remaining list carries exactly one `HOST` — a promoted former non-host
(the first remaining member) — and every other remaining member keeps
its previous record unchanged. -/
theorem leaveRoom_host_promotion (room : Room)
    (hcount : room.members.countP
      (fun m => m.userId == room.hostId) = 1)
    (hrole : ∀ m ∈ room.members,
      (m.role = Role.HOST ↔ m.userId = room.hostId))
    (hrem : room.members.filter
      (fun m => ! (m.userId == room.hostId)) ≠ []) :
    (leaveRoomCore room.hostId room).members.length + 1 =
      room.members.length ∧
    (leaveRoomCore room.hostId room).members.countP
      (fun m => m.role == Role.HOST) = 1 ∧
    ∃ m rest,
      room.members.filter (fun x => ! (x.userId == room.hostId)) =
        m :: rest ∧
      m.role ≠ Role.HOST ∧
      (leaveRoomCore room.hostId room).members =
        { m with role := Role.HOST } :: rest := by
  cases hfil : room.members.filter
      (fun x => ! (x.userId == room.hostId)) with
  | nil => exact absurd hfil hrem
  | cons m rest =>
      have hmembers : (leaveRoomCore room.hostId room).members =
          { m with role := Role.HOST } :: rest := by
        simp only [leaveRoomCore, hfil]
        simp
      have hmfil : m ∈ room.members.filter
          (fun x => ! (x.userId == room.hostId)) := by
        rw [hfil]
        exact List.mem_cons_self m rest
      have hmne : m.userId ≠ room.hostId := by
        have := (List.mem_filter.mp hmfil).2
        simpa using this
      have hmrole : m.role ≠ Role.HOST := by
        intro hh
        exact hmne ((hrole m (List.mem_of_mem_filter hmfil)).mp hh)
      refine ⟨?_, ?_, m, rest, rfl, hmrole, hmembers⟩
      · have hlen := length_filter_not_beq room.hostId room.members
        have h1 : (leaveRoomCore room.hostId room).members.length =
            rest.length + 1 := by
          rw [hmembers]
          simp
        have h2 : (room.members.filter
            (fun x => ! (x.userId == room.hostId))).length =
            rest.length + 1 := by
          rw [hfil]
          simp
        omega
      · rw [hmembers, List.countP_cons]
        have hzero : rest.countP (fun x => x.role == Role.HOST) = 0 := by
          rw [List.countP_eq_zero]
          intro x hx
          have hxfil : x ∈ room.members.filter
              (fun y => ! (y.userId == room.hostId)) := by
            rw [hfil]
            exact List.mem_cons_of_mem m hx
          have hxne : x.userId ≠ room.hostId := by
            have := (List.mem_filter.mp hxfil).2
            simpa using this
          have : x.role ≠ Role.HOST := by
            intro hh
            exact hxne
              ((hrole x (List.mem_of_mem_filter hxfil)).mp hh)
          simpa using this
        simp [hzero]

/-- Witness for C3: the scenario from the spec — host A leaves a room
with members [A(HOST), B(MEMBER), C(MEMBER)]; B is promoted to `HOST`,
C keeps `MEMBER`, member count drops to 2 with exactly one `HOST`. -/
theorem leaveRoom_host_promotion_witness :
    (leaveRoomCore "aaaaaaaaaaaa"
      (Room.mk "roomroomroom" "AB12CD" "aaaaaaaaaaaa" "Algebra"
        Status.WAITING 4
        [Member.mk "aaaaaaaaaaaa" Role.HOST false 0,
         Member.mk "bbbbbbbbbbbb" Role.MEMBER false 1,
         Member.mk "cccccccccccc" Role.MEMBER true 2])).members.countP
      (fun m => m.role == Role.HOST) = 1 :=
  (leaveRoom_host_promotion
    (Room.mk "roomroomroom" "AB12CD" "aaaaaaaaaaaa" "Algebra"
      Status.WAITING 4
      [Member.mk "aaaaaaaaaaaa" Role.HOST false 0,
       Member.mk "bbbbbbbbbbbb" Role.MEMBER false 1,
       Member.mk "cccccccccccc" Role.MEMBER true 2])
    (by decide) (by decide) (by decide)).2.1

/-- Counterexample to C5: join codes are not case-insensitive. A room
with the stored (uppercase) code "AB12CD" exists, is `WAITING`, has free
seats, and the joining user exists and is well-formed — yet `joinRoom`
with the all-lowercase rendering "ab12cd" fails with the room-not-found
error, because `findOne({code})` matches the code string exactly. -/
theorem joinRoom_lowercase_code_fails :
    isValidObjectId "useruseruser" = true ∧
    (Room.mk "roomroomroom" "AB12CD" "hosthosthost" "Algebra"
      Status.WAITING 4 [Member.mk "hosthosthost" Role.HOST false 0]).code =
      "AB12CD" ∧
    (joinRoom [User.mk "useruseruser" "Uma"] "useruseruser" "ab12cd" 5
        [Room.mk "roomroomroom" "AB12CD" "hosthosthost" "Algebra"
          Status.WAITING 4
          [Member.mk "hosthosthost" Role.HOST false 0]]).1 =
      Except.error RoomError.roomNotFound := by
  decide

/-- Claim C5 as amended: join-code matching is case-sensitive exact
string equality. `joinRoom` (with a well-formed caller id) fails with
the room-not-found error precisely when no stored room's code equals the
given string character for character; in particular it never fails with
room-not-found when some room stores the exact code, but a different
case rendering of a stored code is not matched. -/
theorem joinRoom_code_exact_match (users : List User)
    (userId code : String) (now : Nat) (db : List Room)
    (hv : isValidObjectId userId = true) :
    (joinRoom users userId code now db).1 =
        Except.error RoomError.roomNotFound ↔
      ∀ r ∈ db, r.code ≠ code := by
  rw [joinRoom_eq_applyCore users userId code now db hv]
  cases hfind : db.find? (fun r => r.code == code) with
  | none =>
      rw [List.find?_eq_none] at hfind
      simpa using hfind
  | some room =>
      have hmem := List.mem_of_find?_eq_some hfind
      have hcode : room.code = code := by
        simpa using List.find?_some hfind
      rw [applyCore_fst_error]
      simp only [joinRoomCore_never_notFound users userId now room,
        false_iff]
      intro hall
      exact hall room hmem hcode

/-- Witness for C5 (amended): with the exact uppercase code the demo
room is matched and the result is not the room-not-found error. -/
theorem joinRoom_code_exact_match_witness :
    isValidObjectId "useruseruser" = true ∧
    ¬ ((joinRoom [User.mk "useruseruser" "Uma"] "useruseruser" "AB12CD" 5
        [Room.mk "roomroomroom" "AB12CD" "hosthosthost" "Algebra"
          Status.WAITING 4
          [Member.mk "hosthosthost" Role.HOST false 0]]).1 =
      Except.error RoomError.roomNotFound) := by
  refine ⟨by decide, ?_⟩
  intro h
  have := (joinRoom_code_exact_match [User.mk "useruseruser" "Uma"]
    "useruseruser" "AB12CD" 5
    [Room.mk "roomroomroom" "AB12CD" "hosthosthost" "Algebra"
      Status.WAITING 4 [Member.mk "hosthosthost" Role.HOST false 0]]
    (by decide)).mp h
  exact this (Room.mk "roomroomroom" "AB12CD" "hosthosthost" "Algebra"
    Status.WAITING 4 [Member.mk "hosthosthost" Role.HOST false 0])
    (by decide) rfl

theorem isValidObjectId_ne_empty (s : String)
    (h : isValidObjectId s = true) : (s == "") = false := by
  by_cases hs : s = ""
  · subst hs
    simp [isValidObjectId] at h
  · simp [hs]

/-- Counterexample to C10: a request whose authenticated user's id is
not the id of any room, but whose `roomId` path parameter is not a
well-formed ObjectId, fails with the invalid-id error (400), not the
room-not-found error (the swapped user id passes the validity check but
the swapped parameter does not). The collection is still unchanged. -/
theorem controllerLeaveRoom_bad_param_error :
    (∀ r ∈ [Room.mk "roomroomroom" "AB12CD" "hosthosthost" "Algebra"
        Status.WAITING 4 [Member.mk "hosthosthost" Role.HOST false 0]],
      r.id ≠ "useruseruser") ∧
    controllerLeaveRoom (some (User.mk "useruseruser" "Uma")) "xyz"
        [Room.mk "roomroomroom" "AB12CD" "hosthosthost" "Algebra"
          Status.WAITING 4
          [Member.mk "hosthosthost" Role.HOST false 0]] =
      (Except.error RoomError.invalidIdFormat,
        [Room.mk "roomroomroom" "AB12CD" "hosthosthost" "Algebra"
          Status.WAITING 4
          [Member.mk "hosthosthost" Role.HOST false 0]]) ∧
    RoomError.invalidIdFormat ≠ RoomError.roomNotFound := by
  decide

/-- Claim C10 as amended: the HTTP leave-room and toggle-ready
controllers pass `(req.user.id, roomId)` to service functions expecting
`(roomId, userId)`. Consequently, whenever the authenticated user's id
is not itself the id of an existing room and the `roomId` path parameter
is a well-formed ObjectId, both endpoints fail with the room-not-found
error and leave the room collection (membership, roles and ready flags)
unchanged; with a malformed parameter they instead fail with the
invalid-id error, still leaving the collection unchanged. -/
theorem controllers_swapped_args_notFound (u : User) (rid : String)
    (db : List Room) (hu : isValidObjectId u.id = true)
    (hrid : isValidObjectId rid = true)
    (hno : ∀ r ∈ db, r.id ≠ u.id) :
    controllerLeaveRoom (some u) rid db =
      (Except.error RoomError.roomNotFound, db) ∧
    controllerToggleReady (some u) rid db =
      (Except.error RoomError.roomNotFound, db) := by
  have hfind : db.find? (fun r => r.id == u.id) = none := by
    rw [List.find?_eq_none]
    intro r hr
    simpa using hno r hr
  have hne := isValidObjectId_ne_empty rid hrid
  constructor
  · simp only [controllerLeaveRoom, hne, Bool.false_eq_true, if_false]
    unfold leaveRoomService
    rw [if_neg (by simp [hu, hrid]), hfind]
  · simp only [controllerToggleReady, hne, Bool.false_eq_true, if_false]
    unfold toggleReadyService
    rw [if_neg (by simp [hu, hrid]), hfind]

/-- Witness for C10 (amended): a concrete request with a well-formed
room id parameter fails with room-not-found on both endpoints. -/
theorem controllers_swapped_args_notFound_witness :
    controllerLeaveRoom (some (User.mk "useruseruser" "Uma"))
        "zzzzzzzzzzzz" [] =
      (Except.error RoomError.roomNotFound, []) ∧
    controllerToggleReady (some (User.mk "useruseruser" "Uma"))
        "zzzzzzzzzzzz" [] =
      (Except.error RoomError.roomNotFound, []) :=
  controllers_swapped_args_notFound (User.mk "useruseruser" "Uma")
    "zzzzzzzzzzzz" [] (by decide) (by decide) (by intro r hr; cases hr)

/-- Claim C6: for every dequeued chat job (with a well-formed user id
field), the worker first requires the referenced room to exist (erroring
otherwise); for a non-system message carrying a user id it requires the
user to exist and to be a current member of the room, erroring with the
corresponding failure when either check fails and succeeding when both
pass; on success exactly one durable message is appended, whose stored
`createdAt` equals the job's enqueued `timestamp` — and the result never
depends on the wall clock at processing time. -/
theorem worker_process_spec (rooms : List Room) (users : List User)
    (data : ChatMessageJob) (history : List ChatMessage) (now : Nat)
    (hwf : ∀ uid, data.userId = some uid → uid ≠ "") :
    (rooms.find? (fun r => r.id == data.roomId) = none →
      processChatMessage rooms users data history now =
        Except.error WorkerError.roomMissing) ∧
    (∀ room, rooms.find? (fun r => r.id == data.roomId) = some room →
      ∀ uid, data.userId = some uid → data.type ≠ MsgType.SYSTEM →
      (users.find? (fun u => u.id == uid) = none →
        processChatMessage rooms users data history now =
          Except.error WorkerError.userMissing) ∧
      (∀ u, users.find? (fun x => x.id == uid) = some u →
        rooms.find? (fun r => r.id == data.roomId &&
          r.members.any (fun m => m.userId == uid)) = none →
        processChatMessage rooms users data history now =
          Except.error WorkerError.notMember) ∧
      (∀ u rm, users.find? (fun x => x.id == uid) = some u →
        rooms.find? (fun r => r.id == data.roomId &&
          r.members.any (fun m => m.userId == uid)) = some rm →
        processChatMessage rooms users data history now =
          Except.ok (history ++ [messageOfJob data]))) ∧
    (∀ h2, processChatMessage rooms users data history now =
        Except.ok h2 →
      h2 = history ++ [messageOfJob data] ∧
      (messageOfJob data).createdAt = data.timestamp) ∧
    (∀ t1 t2 : Nat, processChatMessage rooms users data history t1 =
      processChatMessage rooms users data history t2) := by
  refine ⟨?_, ?_, ?_, fun t1 t2 => rfl⟩
  · intro hroom
    unfold processChatMessage
    rw [hroom]
  · intro room hroom uid huid htype
    have hne : uid ≠ "" := hwf uid huid
    refine ⟨?_, ?_, ?_⟩
    · intro huser
      unfold processChatMessage
      rw [hroom]
      simp [huid, hne, htype, huser]
    · intro u huser hmem
      unfold processChatMessage
      rw [hroom]
      simp [huid, hne, htype, huser, hmem]
    · intro u rm huser hmem
      unfold processChatMessage
      rw [hroom]
      simp [huid, hne, htype, huser, hmem]
  · intro h2 hok
    refine ⟨?_, rfl⟩
    unfold processChatMessage at hok
    cases hroom : rooms.find? (fun r => r.id == data.roomId) with
    | none => rw [hroom] at hok; cases hok
    | some room =>
        rw [hroom] at hok
        cases huid : data.userId with
        | none =>
            simp only [huid] at hok
            simp at hok
            exact hok.symm
        | some uid =>
            simp only [huid] at hok
            by_cases hc : (uid != "" && !(data.type == MsgType.SYSTEM)) = true
            · rw [if_pos hc] at hok
              by_cases hu : (users.find? (fun u => u.id == uid)).isNone =
                  true
              · rw [if_pos hu] at hok; cases hok
              · rw [if_neg hu] at hok
                by_cases hm : (rooms.find? (fun r =>
                    r.id == data.roomId &&
                    r.members.any (fun m => m.userId == uid))).isNone =
                    true
                · rw [if_pos hm] at hok; cases hok
                · rw [if_neg hm] at hok
                  cases hok
                  rfl
            · rw [if_neg hc] at hok
              cases hok
              rfl

/-- Witness for C6: a valid member message is appended with the job's
timestamp as `createdAt`. -/
theorem worker_process_spec_witness :
    ([] : List ChatMessage) ++
      [messageOfJob (ChatMessageJob.mk "roomroomroom"
        (some "useruseruser") "Uma" "hi" MsgType.TEXT 1234)] =
      [] ++ [messageOfJob (ChatMessageJob.mk "roomroomroom"
        (some "useruseruser") "Uma" "hi" MsgType.TEXT 1234)] ∧
    (messageOfJob (ChatMessageJob.mk "roomroomroom" (some "useruseruser")
      "Uma" "hi" MsgType.TEXT 1234)).createdAt = 1234 :=
  (worker_process_spec
    [Room.mk "roomroomroom" "AB12CD" "hosthosthost" "Algebra"
      Status.WAITING 4
      [Member.mk "hosthosthost" Role.HOST false 0,
       Member.mk "useruseruser" Role.MEMBER false 1]]
    [User.mk "useruseruser" "Uma"]
    (ChatMessageJob.mk "roomroomroom" (some "useruseruser") "Uma" "hi"
      MsgType.TEXT 1234)
    [] 99
    (by intro uid h; cases h; decide)).2.2.1
    ([] ++ [messageOfJob (ChatMessageJob.mk "roomroomroom"
      (some "useruseruser") "Uma" "hi" MsgType.TEXT 1234)])
    (by decide)

/-- Claim C7: on every successful join-room socket event, given that the
joining user has a presence entry (every current member received one
from the HTTP create/join path), that entry is set online=true with all
of its other fields carried over; the synthetic system chat job
"<name> joined the room" is sent to the other connections of the room
and appended to the persistence queue; the room's current presence list
is emitted; and the joining connection receives the most recent 20 chat
messages of the room in chronological (oldest-first) order. -/
theorem gateway_joinRoom_success_effects (userId userName roomId : String)
    (now : Nat) (st : GatewayState) (eff : JoinRoomEffects)
    (entry : PresenceEntry)
    (hp : hget st.presence roomId userId = some entry)
    (hok : handleJoinRoom userId userName roomId now st = Except.ok eff) :
    hget eff.presence roomId userId =
      some { entry with isOnline := true } ∧
    eff.queue = st.queue ++
      [ChatMessageJob.mk roomId none "System"
        (userName ++ " joined the room") MsgType.SYSTEM now] ∧
    eff.systemMessageToOthers = (userName ++ " joined the room", now) ∧
    eff.roomUsersToAll = getRoomPresence eff.presence roomId ∧
    eff.chatHistoryToSelf = (getRoomMessages st.history roomId 20).reverse ∧
    Chronological eff.chatHistoryToSelf ∧
    eff.chatHistoryToSelf.length ≤ 20 ∧
    (∀ m ∈ eff.chatHistoryToSelf, m.roomId = roomId) := by
  unfold handleJoinRoom at hok
  cases hg : getRoomById roomId userId st.rooms with
  | error e => rw [hg] at hok; cases hok
  | ok room =>
      rw [hg] at hok
      cases hok
      refine ⟨?_, rfl, rfl, rfl, rfl, ?_, ?_, ?_⟩
      · simp only [updateUserOnlineStatus, hp]
        exact hget_hset_self st.presence roomId userId _
      · unfold Chronological getRoomMessages
        haveI : IsTotal ChatMessage
            (fun a b => b.createdAt ≤ a.createdAt) :=
          ⟨fun a b => (Nat.le_total b.createdAt a.createdAt).elim
            Or.inl Or.inr⟩
        haveI : IsTrans ChatMessage
            (fun a b => b.createdAt ≤ a.createdAt) :=
          ⟨fun a b c hab hbc => le_trans hbc hab⟩
        have hs := List.sorted_insertionSort
          (fun a b : ChatMessage => b.createdAt ≤ a.createdAt)
          (st.history.filter (fun m => m.roomId == roomId))
        have htake := List.Pairwise.sublist
          (List.take_sublist 20 _) hs
        exact List.pairwise_reverse.mpr htake
      · simp only [List.length_reverse]
        exact List.length_take_le 20 _
      · intro m hm
        rw [List.mem_reverse] at hm
        have hm2 : m ∈ List.insertionSort
            (fun a b : ChatMessage => b.createdAt ≤ a.createdAt)
            (st.history.filter (fun x => x.roomId == roomId)) :=
          (List.take_sublist 20 _).subset hm
        have hm3 : m ∈ st.history.filter (fun x => x.roomId == roomId) :=
          (List.perm_insertionSort _ _).mem_iff.mp hm2
        have := (List.mem_filter.mp hm3).2
        simpa using this

/-- Witness for C7: a concrete gateway state — one room with the joining
user as member, one presence entry (offline), two stored messages with
timestamps 9 and 5 — on which the join handler succeeds; the effects
asserted by the theorem evaluate concretely: the presence entry comes
back online and the history arrives oldest-first. -/
theorem gateway_joinRoom_success_effects_witness :
    hget (JoinRoomEffects.mk
        [("roomroomroom", "useruseruser",
          PresenceEntry.mk "useruseruser" "Uma" false true)]
        [ChatMessageJob.mk "roomroomroom" none "System"
          "Uma joined the room" MsgType.SYSTEM 42]
        ("Uma joined the room", 42)
        [PresenceEntry.mk "useruseruser" "Uma" false true]
        [ChatMessage.mk "roomroomroom" none "early" MsgType.TEXT 5,
         ChatMessage.mk "roomroomroom" (some "useruseruser") "late"
           MsgType.TEXT 9]).presence "roomroomroom" "useruseruser" =
      some (PresenceEntry.mk "useruseruser" "Uma" false true) ∧
    Chronological (JoinRoomEffects.mk
        [("roomroomroom", "useruseruser",
          PresenceEntry.mk "useruseruser" "Uma" false true)]
        [ChatMessageJob.mk "roomroomroom" none "System"
          "Uma joined the room" MsgType.SYSTEM 42]
        ("Uma joined the room", 42)
        [PresenceEntry.mk "useruseruser" "Uma" false true]
        [ChatMessage.mk "roomroomroom" none "early" MsgType.TEXT 5,
         ChatMessage.mk "roomroomroom" (some "useruseruser") "late"
           MsgType.TEXT 9]).chatHistoryToSelf := by
  have heff := gateway_joinRoom_success_effects "useruseruser" "Uma"
    "roomroomroom" 42
    (GatewayState.mk
      [Room.mk "roomroomroom" "AB12CD" "hosthosthost" "Algebra"
        Status.WAITING 4
        [Member.mk "hosthosthost" Role.HOST false 0,
         Member.mk "useruseruser" Role.MEMBER false 1]]
      [User.mk "useruseruser" "Uma"]
      [("roomroomroom", "useruseruser",
        PresenceEntry.mk "useruseruser" "Uma" false false)]
      [ChatMessage.mk "roomroomroom" (some "useruseruser") "late"
        MsgType.TEXT 9,
       ChatMessage.mk "roomroomroom" none "early" MsgType.TEXT 5]
      [])
    (JoinRoomEffects.mk
      [("roomroomroom", "useruseruser",
        PresenceEntry.mk "useruseruser" "Uma" false true)]
      [ChatMessageJob.mk "roomroomroom" none "System"
        "Uma joined the room" MsgType.SYSTEM 42]
      ("Uma joined the room", 42)
      [PresenceEntry.mk "useruseruser" "Uma" false true]
      [ChatMessage.mk "roomroomroom" none "early" MsgType.TEXT 5,
       ChatMessage.mk "roomroomroom" (some "useruseruser") "late"
         MsgType.TEXT 9])
    (PresenceEntry.mk "useruseruser" "Uma" false false)
    (by decide) (by decide)
  exact ⟨heff.1, heff.2.2.2.2.2.1⟩

/-- Claim C9: the persistence pipeline's policy constants are exactly as
stated: jobs get 3 attempts with exponential backoff starting at 2000 ms,
retention keeps up to 100 completed and 50 failed jobs, and the worker
runs with concurrency 5 under a ceiling of 100 jobs per 60000 ms. -/
theorem chat_pipeline_policy_constants :
    chatQueueDefaultJobOptions.attempts = 3 ∧
    chatQueueDefaultJobOptions.backoff.kind = "exponential" ∧
    chatQueueDefaultJobOptions.backoff.delay = 2000 ∧
    chatQueueDefaultJobOptions.removeOnComplete = 100 ∧
    chatQueueDefaultJobOptions.removeOnFail = 50 ∧
    chatWorkerOptions.concurrency = 5 ∧
    chatWorkerOptions.limiterMax = 100 ∧
    chatWorkerOptions.limiterDuration = 60000 :=
  ⟨rfl, rfl, rfl, rfl, rfl, rfl, rfl, rfl⟩

end StudyFlow
